import Mathlib

/-!
Shallow embedding of the push-to-talk voice dictation session controller
(src/code_speak/core.py and the recorder wrapper src/claude_speak/recorder.py).

Pure text processing is translated to Lean functions. The stateful
VoiceInput controller is translated to explicit state passing: each method
takes the configuration (Python reads self.config at call time, so a
configuration that mutates between calls is modelled by passing different
values), an environment describing the outcomes of the external recognizer
calls, and the current state, and returns the new state together with a
trace of observable events (synthesized keystrokes, recognizer calls,
callback invocations, error reports). Exceptions in the Python source are
modelled with Except; every try/except of the source is an explicit match.
-/

namespace ISpeak

/-- Configuration snapshot fields read by the core (code_speak.core reads
them from self.config.code_speak). delete_keywords is Option (List String):
none models the falsy disable value (False or None) of the Python field. -/
structure CodeSpeakConfig where
  push_to_talk_key : String
  escape_key : String
  recording_indicator : String
  delete_keywords : Option (List String)
  strip : Bool
  fast_delete : Bool
  deriving Repr, DecidableEq

/-- Outcomes of the external recognizer operations for one call sequence:
true or some means the underlying call returns normally, false or none
means it raises. -/
structure RecEnv where
  startOk : Bool
  stopOk : Bool
  textResult : Option String
  shutdownOk : Bool
  deriving Repr, DecidableEq

/-- State of RealtimeSTTRecorder (recorder.py): inner is whether the
wrapped AudioToTextRecorder handle (self._recorder) is still present. -/
structure RSTTRecorder where
  inner : Bool
  deriving Repr, DecidableEq

/-- Observable events emitted by the controller. -/
inductive Event where
  | typeText (t : String)
  | backspaceBatch (n : Nat)
  | backspaceOne
  | recStart
  | recStop
  | recText
  | recShutdown
  | onText (t : String)
  | errorReport
  deriving Repr, DecidableEq

/-- RealtimeSTTRecorder.start: raises if the inner handle is gone,
otherwise delegates to the inner handle which may raise. -/
def RSTTRecorder.start (env : RecEnv) (r : RSTTRecorder) : Except Unit Unit :=
  if r.inner then (if env.startOk then Except.ok () else Except.error ())
  else Except.error ()

/-- RealtimeSTTRecorder.stop: raises if the inner handle is gone,
otherwise delegates to the inner handle which may raise. -/
def RSTTRecorder.stop (env : RecEnv) (r : RSTTRecorder) : Except Unit Unit :=
  if r.inner then (if env.stopOk then Except.ok () else Except.error ())
  else Except.error ()

/-- RealtimeSTTRecorder.text: raises if the inner handle is gone,
otherwise returns the transcript of the just-ended capture (or raises). -/
def RSTTRecorder.text (env : RecEnv) (r : RSTTRecorder) : Except Unit String :=
  if r.inner then
    match env.textResult with
    | some t => Except.ok t
    | none => Except.error ()
  else Except.error ()

/-- RealtimeSTTRecorder.shutdown: if the inner handle is present, its
shutdown is attempted inside try/except (the error is swallowed) and the
finally block drops the handle; otherwise nothing happens. It never
raises, which is why the return type carries no Except. -/
def RSTTRecorder.shutdown (env : RecEnv) (r : RSTTRecorder) :
    RSTTRecorder × List Event :=
  if r.inner then
    match (if env.shutdownOk then Except.ok () else Except.error ()) with
    | Except.ok _ => ({ inner := false }, [Event.recShutdown])
    | Except.error _ => ({ inner := false }, [Event.recShutdown])
  else (r, [])

/-- Python str.lower modelled on the character list of the string (the
built-in String.toLower is extensionally the same map but is defined by
well-founded recursion on positions, which the kernel cannot evaluate). -/
def strLower (s : String) : String := ⟨s.data.map Char.toLower⟩

/-- Python str.strip modelled on the character list: drop leading and
trailing whitespace. -/
def strTrim (s : String) : String :=
  ⟨((s.data.dropWhile Char.isWhitespace).reverse.dropWhile
      Char.isWhitespace).reverse⟩

/-- Python str.endswith applied to a one-character period suffix. -/
def strEndsWithPeriod (s : String) : Bool := s.data.getLast? == some '.'

/-- Python slicing s[:-1]: the string without its last character. -/
def strDropLast (s : String) : String := ⟨s.data.dropLast⟩

/-- TextProcessor.process_text: empty text is returned as is, otherwise
leading and trailing whitespace is stripped when the strip flag is set. -/
def process_text (cfg : CodeSpeakConfig) (text : String) : String :=
  if text = "" then text
  else if cfg.strip then strTrim text else text

/-- TextProcessor.is_delete_command: false when the keyword feature is
falsy (none or empty list); otherwise the input is lowercased, trimmed,
one trailing period is stripped, and the result is tested for membership
in the lowercased keyword list. -/
def is_delete_command (cfg : CodeSpeakConfig) (text : String) : Bool :=
  match cfg.delete_keywords with
  | none => false
  | some kws =>
    if kws = [] then false
    else
      let normalized := strTrim (strLower text)
      let normalized :=
        if strEndsWithPeriod normalized then strDropLast normalized
        else normalized
      (kws.map strLower).contains normalized

/-- Normalization applied by is_delete_command to its input, named for use
in specification statements: lowercase, trim, strip one trailing period. -/
def normalizedDelete (text : String) : String :=
  let n := strTrim (strLower text)
  if strEndsWithPeriod n then strDropLast n else n

/-- Tagged union of pynput key values reaching the hook callback
(KeyCode with optional printable char and virtual-key code, named Key,
or a raw string). -/
inductive PKey where
  | code (c : Option Char) (vk : Nat)
  | named (n : String)
  | str (s : String)
  deriving Repr, DecidableEq

/-- Python truthiness test used by the guards (if not key): None and the
empty raw string are falsy. -/
def keyFalsy : Option PKey → Bool
  | none => true
  | some (PKey.str "") => true
  | some _ => false

/-- key_to_str of core.py: canonical lowercase string for a key. -/
def key_to_str : Option PKey → String
  | none => ""
  | some (PKey.str "") => ""
  | some (PKey.code (some c) _) => strLower (String.singleton c)
  | some (PKey.code none vk) => strLower ("vk_" ++ toString vk)
  | some (PKey.named n) => strLower n
  | some (PKey.str s) => s

/-- VoiceInput state: the session flags, whether the hook listener is
registered, the recognizer handle (None only in degenerate states), whether
the on_text callback was set by start, and the undo stack last_input. -/
structure VoiceInput where
  active : Bool
  recording : Bool
  listener : Bool
  recorder : Option RSTTRecorder
  onTextSet : Bool
  last_input : List String
  deriving Repr, DecidableEq

/-- VoiceInput._handle_delete: zero characters is a no-op; with the
fast_delete flag one batch press of that many backspaces is submitted,
otherwise one press per character. -/
def handle_delete (cfg : CodeSpeakConfig) (chars_to_delete : Nat) : List Event :=
  if chars_to_delete = 0 then []
  else if cfg.fast_delete then [Event.backspaceBatch chars_to_delete]
  else List.replicate chars_to_delete Event.backspaceOne

/-- VoiceInput._handle_delete_indicator: backspaces over the recording
indicator, reading the length of the CURRENT configuration value. -/
def handle_delete_indicator (cfg : CodeSpeakConfig) : List Event :=
  handle_delete cfg cfg.recording_indicator.length

/-- VoiceInput._handle_delete_last: pops the most recent undo entry if any
and backspaces its length plus one (the trailing separator). -/
def handle_delete_last (cfg : CodeSpeakConfig) (s : VoiceInput) :
    VoiceInput × List Event :=
  match s.last_input.getLast? with
  | none => (s, [])
  | some last_text =>
      ({ s with last_input := s.last_input.dropLast },
       handle_delete cfg (last_text.length + 1))

/-- VoiceInput._start_recording: reports when no recorder is available;
otherwise sets the recording flag, types the indicator, and starts the
recognizer; on a start failure reports, resets the flag and rolls the
indicator back. -/
def VoiceInput.start_recording (cfg : CodeSpeakConfig) (env : RecEnv)
    (s : VoiceInput) : VoiceInput × List Event :=
  match s.recorder with
  | none => (s, [Event.errorReport])
  | some r =>
    let s1 : VoiceInput := { s with recording := true }
    let ev1 := [Event.typeText cfg.recording_indicator]
    match RSTTRecorder.start env r with
    | Except.ok _ => (s1, ev1 ++ [Event.recStart])
    | Except.error _ =>
        ({ s1 with recording := false },
         ev1 ++ [Event.recStart, Event.errorReport] ++ handle_delete_indicator cfg)

/-- VoiceInput._stop_recording: early return unless recording with a
recorder; clears the flag, removes the indicator, stops the recognizer;
on escape the transcript is discarded; otherwise the transcript is fetched
and, when non-empty, classified: a delete command retracts the last undo
entry, anything else is appended to the undo stack and handed to the
on_text callback. Recognizer errors are caught and reported. -/
def VoiceInput.stop_recording (cfg : CodeSpeakConfig) (env : RecEnv)
    (is_esc : Bool) (s : VoiceInput) : VoiceInput × List Event :=
  match s.recorder with
  | none => (s, [])
  | some r =>
    if s.recording = false then (s, [])
    else
      let s1 : VoiceInput := { s with recording := false }
      let ev1 := handle_delete_indicator cfg
      match RSTTRecorder.stop env r with
      | Except.error _ => (s1, ev1 ++ [Event.recStop, Event.errorReport])
      | Except.ok _ =>
        if is_esc then (s1, ev1 ++ [Event.recStop])
        else
          match RSTTRecorder.text env r with
          | Except.error _ =>
              (s1, ev1 ++ [Event.recStop, Event.recText, Event.errorReport])
          | Except.ok raw_text =>
            if raw_text = "" then (s1, ev1 ++ [Event.recStop, Event.recText])
            else
              let processed_text := process_text cfg raw_text
              if is_delete_command cfg processed_text then
                let p := handle_delete_last cfg s1
                (p.fst, ev1 ++ [Event.recStop, Event.recText] ++ p.snd)
              else
                ({ s1 with last_input := s1.last_input ++ [raw_text] },
                 ev1 ++ [Event.recStop, Event.recText] ++
                   (if s.onTextSet then [Event.onText raw_text] else []))

/-- VoiceInput.stop: clears the active flag and the undo stack, stops the
listener, forces _stop_recording when recording (with the default
is_esc = False of the source), and shuts the recorder down. -/
def VoiceInput.stop (cfg : CodeSpeakConfig) (env : RecEnv) (s : VoiceInput) :
    VoiceInput × List Event :=
  let s1 : VoiceInput := { s with active := false, last_input := [], listener := false }
  let p := if s1.recording then VoiceInput.stop_recording cfg env false s1 else (s1, [])
  match p.fst.recorder with
  | none => p
  | some r =>
    let q := RSTTRecorder.shutdown env r
    ({ p.fst with recorder := some q.fst }, p.snd ++ q.snd)

/-- VoiceInput._on_key_press: ignores events when inactive or the key is
falsy; a configured escape key during recording cancels; the push-to-talk
key toggles recording. -/
def VoiceInput.on_key_press (cfg : CodeSpeakConfig) (env : RecEnv)
    (key : Option PKey) (s : VoiceInput) : VoiceInput × List Event :=
  if !s.active || keyFalsy key then (s, [])
  else
    let key_str := key_to_str key
    if s.recording && (cfg.escape_key == key_str) then
      VoiceInput.stop_recording cfg env true s
    else if key_str == cfg.push_to_talk_key then
      (if s.recording then VoiceInput.stop_recording cfg env false s
       else VoiceInput.start_recording cfg env s)
    else (s, [])

/-- Number of retraction keystrokes an event contributes. -/
def Event.backspaceCount : Event → Nat
  | Event.backspaceBatch n => n
  | Event.backspaceOne => 1
  | _ => 0

/-- Total retraction keystrokes in a trace. -/
def countBackspaces (tr : List Event) : Nat :=
  (tr.map Event.backspaceCount).sum

/-- Number of characters an event types. -/
def Event.typedCharCount : Event → Nat
  | Event.typeText t => t.length
  | _ => 0

/-- Total characters typed in a trace. -/
def typedCount (tr : List Event) : Nat :=
  (tr.map Event.typedCharCount).sum

/-- Arguments of the on_text callback invocations in a trace, in order. -/
def onTextEvents (tr : List Event) : List String :=
  tr.filterMap (fun e => match e with | Event.onText t => some t | _ => none)

/-! Concrete values used by witnesses and counterexamples. -/

/-- Sample configuration: push-to-talk f9, escape esc, one-character
indicator, single delete keyword, both speed flags on. -/
def cfgDeleteKw : CodeSpeakConfig :=
  { push_to_talk_key := "f9", escape_key := "esc", recording_indicator := ";"
  , delete_keywords := some ["delete"], strip := true, fast_delete := true }

/-- Sample state with one undo entry. -/
def sOneEntry : VoiceInput :=
  { active := true, recording := false, listener := true
  , recorder := some { inner := true }, onTextSet := true, last_input := ["ab"] }

/-- Sample fully idle state with an empty undo stack. -/
def sEmptyIdle : VoiceInput :=
  { active := false, recording := false, listener := false
  , recorder := none, onTextSet := false, last_input := [] }

/-- Sample active state currently recording, with an empty undo stack. -/
def sRecActive : VoiceInput :=
  { active := true, recording := true, listener := true
  , recorder := some { inner := true }, onTextSet := true, last_input := [] }

/-- Sample active-idle state, not recording. -/
def sActiveIdle : VoiceInput :=
  { active := true, recording := false, listener := true
  , recorder := some { inner := true }, onTextSet := true, last_input := [] }

/-- Environment where every recognizer call succeeds and the transcript
is hello world. -/
def envHello : RecEnv :=
  { startOk := true, stopOk := true, textResult := some "hello world"
  , shutdownOk := true }

/-- Environment where every recognizer call succeeds and the transcript
is empty (no speech detected). -/
def envEmptyText : RecEnv :=
  { startOk := true, stopOk := true, textResult := some ""
  , shutdownOk := true }

/-- Configuration equal to cfgDeleteKw except for a two-character
recording indicator. -/
def cfgIndicator2 : CodeSpeakConfig :=
  { cfgDeleteKw with recording_indicator := ";;" }

/-- Configuration equal to cfgDeleteKw except for a different
one-character recording indicator (same length, different value). -/
def cfgColon : CodeSpeakConfig :=
  { cfgDeleteKw with recording_indicator := ":" }

/-! Helper lemmas about the emission primitives. -/

/-- Both emission strategies of handle_delete emit exactly the requested
number of retraction keystrokes. -/
theorem countBackspaces_handle_delete (cfg : CodeSpeakConfig) (n : Nat) :
    countBackspaces (handle_delete cfg n) = n := by
  unfold handle_delete countBackspaces
  split
  · simp [*]
  · split
    · simp [Event.backspaceCount]
    · simp [List.map_replicate, Event.backspaceCount, List.sum_replicate]

/-- Every event emitted by handle_delete is a backspace event. -/
theorem mem_handle_delete (cfg : CodeSpeakConfig) (n : Nat) (e : Event)
    (h : e ∈ handle_delete cfg n) :
    (∃ m, e = Event.backspaceBatch m) ∨ e = Event.backspaceOne := by
  unfold handle_delete at h
  split at h
  · simp at h
  · split at h
    · simp at h; exact Or.inl ⟨n, h⟩
    · exact Or.inr (List.eq_of_mem_replicate h)

/-- handle_delete never invokes the on_text callback. -/
theorem onTextEvents_handle_delete (cfg : CodeSpeakConfig) (n : Nat) :
    onTextEvents (handle_delete cfg n) = [] := by
  unfold onTextEvents
  rw [List.filterMap_eq_nil_iff]
  intro e he
  rcases mem_handle_delete cfg n e he with ⟨m, rfl⟩ | rfl <;> rfl

/-- Collecting callback invocations distributes over concatenation. -/
theorem onTextEvents_append (a b : List Event) :
    onTextEvents (a ++ b) = onTextEvents a ++ onTextEvents b := by
  unfold onTextEvents
  rw [List.filterMap_append]

/-- The recognizer events, the callback event and the report event never
occur in a handle_delete emission. -/
theorem recText_not_mem_handle_delete (cfg : CodeSpeakConfig) (n : Nat) :
    Event.recText ∉ handle_delete cfg n := by
  intro hmem
  rcases mem_handle_delete cfg n _ hmem with ⟨m, h⟩ | h <;> simp at h

/-- Synthesized indicator removal consists of backspaces only, so it
contains no onText event. -/
theorem onText_not_mem_handle_delete (cfg : CodeSpeakConfig) (n : Nat)
    (t : String) : Event.onText t ∉ handle_delete cfg n := by
  intro hmem
  rcases mem_handle_delete cfg n _ hmem with ⟨m, h⟩ | h <;> simp at h

/-- Synthesized indicator removal contains no typeText event. -/
theorem typeText_not_mem_handle_delete (cfg : CodeSpeakConfig) (n : Nat)
    (t : String) : Event.typeText t ∉ handle_delete cfg n := by
  intro hmem
  rcases mem_handle_delete cfg n _ hmem with ⟨m, h⟩ | h <;> simp at h

/-- handle_delete_last leaves every field but the undo stack unchanged. -/
theorem handle_delete_last_frame (cfg : CodeSpeakConfig) (s : VoiceInput) :
    (handle_delete_last cfg s).fst.recording = s.recording ∧
    (handle_delete_last cfg s).fst.active = s.active ∧
    (handle_delete_last cfg s).fst.listener = s.listener ∧
    (handle_delete_last cfg s).fst.recorder = s.recorder ∧
    (handle_delete_last cfg s).fst.onTextSet = s.onTextSet := by
  unfold handle_delete_last
  rcases h : s.last_input.getLast? <;> simp

/-- stop_recording changes only the recording flag and the undo stack:
the active flag, the listener, the recorder handle and the callback are
untouched in every branch. -/
theorem stop_recording_frame (cfg : CodeSpeakConfig) (env : RecEnv)
    (is_esc : Bool) (s : VoiceInput) :
    (VoiceInput.stop_recording cfg env is_esc s).fst.recorder = s.recorder ∧
    (VoiceInput.stop_recording cfg env is_esc s).fst.active = s.active ∧
    (VoiceInput.stop_recording cfg env is_esc s).fst.listener = s.listener ∧
    (VoiceInput.stop_recording cfg env is_esc s).fst.onTextSet = s.onTextSet := by
  unfold VoiceInput.stop_recording
  rcases hr : s.recorder with _ | r
  · simp [hr]
  · simp only
    split
    · simp [hr]
    · rcases hstop : RSTTRecorder.stop env r with u | u
      · simp [hr]
      · rcases he : is_esc
        · rcases htext : RSTTRecorder.text env r with v | raw
          · simp [hr]
          · by_cases hraw : raw = ""
            · simp [hr, hraw]
            · by_cases hdel : is_delete_command cfg (process_text cfg raw)
              · simp only [hraw, if_neg, hdel, if_pos, if_true]
                have hf := handle_delete_last_frame cfg
                  { s with recording := false }
                simp_all [hr]
              · simp_all [hr]
        · simp [hr]


/-- handle_delete types no characters. -/
theorem typedCount_handle_delete (cfg : CodeSpeakConfig) (n : Nat) :
    typedCount (handle_delete cfg n) = 0 := by
  unfold typedCount
  rw [List.sum_eq_zero]
  intro x hx
  simp only [List.mem_map] at hx
  obtain ⟨e, he, rfl⟩ := hx
  rcases mem_handle_delete cfg n e he with ⟨m, rfl⟩ | rfl <;> rfl

/-- Counting retraction keystrokes distributes over trace concatenation. -/
theorem countBackspaces_append (a b : List Event) :
    countBackspaces (a ++ b) = countBackspaces a + countBackspaces b := by
  unfold countBackspaces
  rw [List.map_append, List.sum_append]

/-- When stop_recording passes its guard (recording with a recorder) the
recording flag is false afterwards in every branch, including every
recognizer failure branch. -/
theorem stop_recording_recording_false (cfg : CodeSpeakConfig) (env : RecEnv)
    (is_esc : Bool) (s : VoiceInput) (r : RSTTRecorder)
    (hr : s.recorder = some r) (hrec : s.recording = true) :
    (VoiceInput.stop_recording cfg env is_esc s).fst.recording = false := by
  unfold VoiceInput.stop_recording
  rw [hr]
  simp only [hrec]
  rcases hstop : RSTTRecorder.stop env r with u | u
  · simp
  · rcases he : is_esc
    · rcases htext : RSTTRecorder.text env r with v | raw
      · simp
      · by_cases hraw : raw = ""
        · simp [hraw]
        · by_cases hdel : is_delete_command cfg (process_text cfg raw)
          · have hf := (handle_delete_last_frame cfg
              { s with recording := false }).1
            simp_all
          · simp_all
    · simp

/-- Either the stop_recording guard fails (no recording or no recorder)
and the call is an identity with empty trace, or the recording flag is
false afterwards. -/
theorem stop_recording_cases (cfg : CodeSpeakConfig) (env : RecEnv)
    (is_esc : Bool) (s : VoiceInput) :
    ((s.recorder = none ∨ s.recording = false) ∧
      VoiceInput.stop_recording cfg env is_esc s = (s, [])) ∨
    (VoiceInput.stop_recording cfg env is_esc s).fst.recording = false := by
  rcases hr : s.recorder with _ | r
  · left
    refine ⟨Or.inl rfl, ?_⟩
    unfold VoiceInput.stop_recording
    rw [hr]
  · rcases hrec : s.recording
    · left
      refine ⟨Or.inr rfl, ?_⟩
      unfold VoiceInput.stop_recording
      rw [hr]
      simp [hrec]
    · exact Or.inr (stop_recording_recording_false cfg env is_esc s r hr hrec)

/-! Claim theorems. -/

/-- C10: when the recognizer reports an empty transcript at a toggle-stop,
the controller does nothing further for the utterance: the resulting state
differs from the previous one only in the recording flag (in particular the
undo stack is unchanged and the callback is not invoked), and the trace is
exactly the indicator removal followed by the recognizer stop and fetch
calls (no classification, no injection, no extra keystrokes). -/
theorem C10_empty_transcript_frame (cfg : CodeSpeakConfig) (env : RecEnv)
    (s : VoiceInput) (r : RSTTRecorder) (hr : s.recorder = some r)
    (hrec : s.recording = true)
    (hstop : RSTTRecorder.stop env r = Except.ok ())
    (htext : RSTTRecorder.text env r = Except.ok "") :
    VoiceInput.stop_recording cfg env false s =
      ({ s with recording := false },
       handle_delete_indicator cfg ++ [Event.recStop, Event.recText]) := by
  unfold VoiceInput.stop_recording
  rw [hr]
  simp only [hrec]
  rw [hstop, htext]
  simp

/-- C10 witness: concrete recording session whose transcript is empty. -/
theorem C10_witness :
    VoiceInput.stop_recording cfgDeleteKw
        { startOk := true, stopOk := true, textResult := some ""
        , shutdownOk := true }
        false { sOneEntry with recording := true } =
      ({ sOneEntry with recording := false },
       handle_delete_indicator cfgDeleteKw ++
         [Event.recStop, Event.recText]) :=
  C10_empty_transcript_frame cfgDeleteKw
    { startOk := true, stopOk := true, textResult := some ""
    , shutdownOk := true }
    { sOneEntry with recording := true } { inner := true }
    rfl rfl rfl rfl

/-- C7: when a toggle-stop succeeds with a non-empty transcript that is
not classified as a delete command, the raw pre-normalization transcript
is appended to the undo stack (so it is the new top) and the on_text
callback is invoked exactly once, with exactly that raw transcript. -/
theorem C7_push_and_callback (cfg : CodeSpeakConfig) (env : RecEnv)
    (s : VoiceInput) (r : RSTTRecorder) (raw : String)
    (hr : s.recorder = some r) (hrec : s.recording = true)
    (hcb : s.onTextSet = true)
    (hstop : RSTTRecorder.stop env r = Except.ok ())
    (htext : RSTTRecorder.text env r = Except.ok raw) (hne : raw ≠ "")
    (hnd : is_delete_command cfg (process_text cfg raw) = false) :
    (VoiceInput.stop_recording cfg env false s).fst.last_input =
      s.last_input ++ [raw] ∧
    ((VoiceInput.stop_recording cfg env false s).fst.last_input).getLast? =
      some raw ∧
    onTextEvents (VoiceInput.stop_recording cfg env false s).snd = [raw] := by
  unfold VoiceInput.stop_recording
  rw [hr]
  simp only [hrec]
  rw [hstop, htext]
  have htf : (true = false) = False := by simp
  simp only [htf, if_false, if_neg hne, hnd, Bool.false_eq_true, hcb, if_pos]
  refine ⟨by simp, ?_, ?_⟩
  · simp [List.getLast?_concat]
  · rw [onTextEvents_append, onTextEvents_append]
    rw [handle_delete_indicator, onTextEvents_handle_delete]
    rfl

/-- C7 witness: concrete session injecting the transcript hello world. -/
theorem C7_witness :
    (VoiceInput.stop_recording cfgDeleteKw
        { startOk := true, stopOk := true, textResult := some "hello world"
        , shutdownOk := true }
        false { sOneEntry with recording := true }).fst.last_input =
      ["ab"] ++ ["hello world"] ∧
    ((VoiceInput.stop_recording cfgDeleteKw
        { startOk := true, stopOk := true, textResult := some "hello world"
        , shutdownOk := true }
        false { sOneEntry with recording := true }).fst.last_input).getLast? =
      some "hello world" ∧
    onTextEvents (VoiceInput.stop_recording cfgDeleteKw
        { startOk := true, stopOk := true, textResult := some "hello world"
        , shutdownOk := true }
        false { sOneEntry with recording := true }).snd = ["hello world"] :=
  C7_push_and_callback cfgDeleteKw
    { startOk := true, stopOk := true, textResult := some "hello world"
    , shutdownOk := true }
    { sOneEntry with recording := true } { inner := true } "hello world"
    rfl rfl rfl rfl rfl (by decide) (by decide)

/-- C3: is_delete_command is true iff the delete-keyword feature is
enabled (a non-falsy keyword list is configured) and the normalized input
(lowercased, trimmed, one trailing period stripped) equals the lowercase
form of some configured keyword; a falsy feature value forces false for
every input, and matching is exact, so "delete!" does not match the
keyword "delete" while "Delete." does. -/
theorem C3_is_delete_command_spec :
    (∀ (cfg : CodeSpeakConfig) (text : String),
      is_delete_command cfg text = true ↔
        ∃ kws, cfg.delete_keywords = some kws ∧ kws ≠ [] ∧
          ∃ kw ∈ kws, normalizedDelete text = strLower kw) ∧
    (∀ (cfg : CodeSpeakConfig) (text : String),
      cfg.delete_keywords = none ∨ cfg.delete_keywords = some [] →
        is_delete_command cfg text = false) ∧
    is_delete_command cfgDeleteKw "delete!" = false ∧
    is_delete_command cfgDeleteKw "Delete." = true := by
  have hmain : ∀ (cfg : CodeSpeakConfig) (text : String),
      is_delete_command cfg text = true ↔
        ∃ kws, cfg.delete_keywords = some kws ∧ kws ≠ [] ∧
          ∃ kw ∈ kws, normalizedDelete text = strLower kw := by
    intro cfg text
    rcases h : cfg.delete_keywords with _ | kws
    · simp [is_delete_command, h]
    · by_cases hk : kws = []
      · subst hk; simp [is_delete_command, h]
      · simp only [is_delete_command, h, if_neg hk, List.elem_iff,
          List.mem_map, normalizedDelete, Option.some.injEq]
        constructor
        · rintro ⟨kw, hkw, hEq⟩
          exact ⟨kws, rfl, hk, kw, hkw, hEq.symm⟩
        · rintro ⟨kws2, ⟨hkws2, _, kw, hkw, hEq⟩⟩
          subst hkws2
          exact ⟨kw, hkw, hEq.symm⟩
  refine ⟨hmain, ?_, by decide, by decide⟩
  intro cfg text h
  rcases h with h | h <;> simp [is_delete_command, h]

/-- C3 witness: a disabled feature yields false on the literal keyword. -/
theorem C3_witness :
    is_delete_command
      { cfgDeleteKw with delete_keywords := none } "delete" = false :=
  C3_is_delete_command_spec.2.1
    { cfgDeleteKw with delete_keywords := none } "delete" (Or.inl rfl)

/-- C5: recognizer errors during start, stop or fetch are caught and
reported, and the controller always completes the transition out of
recording: a failed start leaves the recording flag false (after the
rollback), and a toggle-stop entered while recording leaves the flag
false for every environment, with an error report whenever the stop or
the fetch raised. -/
theorem C5_failures_reported_and_idle (cfg : CodeSpeakConfig) (env : RecEnv)
    (s : VoiceInput) (r : RSTTRecorder) (hr : s.recorder = some r) :
    (RSTTRecorder.start env r = Except.error () →
      (VoiceInput.start_recording cfg env s).fst.recording = false ∧
      Event.errorReport ∈ (VoiceInput.start_recording cfg env s).snd) ∧
    (s.recording = true →
      (VoiceInput.stop_recording cfg env false s).fst.recording = false ∧
      ((RSTTRecorder.stop env r = Except.error () ∨
        RSTTRecorder.text env r = Except.error ()) →
        Event.errorReport ∈ (VoiceInput.stop_recording cfg env false s).snd)) := by
  constructor
  · intro hfail
    unfold VoiceInput.start_recording
    rw [hr]
    simp [hfail]
  · intro hrec
    refine ⟨stop_recording_recording_false cfg env false s r hr hrec, ?_⟩
    intro herr
    unfold VoiceInput.stop_recording
    rw [hr]
    simp only [hrec]
    rcases hstop : RSTTRecorder.stop env r with u | u
    · simp
    · rcases herr with herr | herr
      · rw [hstop] at herr
        exact absurd herr (by simp)
      · rw [herr]
        simp

/-- C5 witness: a concrete environment in which start, stop and fetch all
raise. -/
theorem C5_witness :
    ((VoiceInput.start_recording cfgDeleteKw
        { startOk := false, stopOk := false, textResult := none
        , shutdownOk := false } sOneEntry).fst.recording = false ∧
      Event.errorReport ∈ (VoiceInput.start_recording cfgDeleteKw
        { startOk := false, stopOk := false, textResult := none
        , shutdownOk := false } sOneEntry).snd) ∧
    ((VoiceInput.stop_recording cfgDeleteKw
        { startOk := false, stopOk := false, textResult := none
        , shutdownOk := false } false
        { sOneEntry with recording := true }).fst.recording = false ∧
      Event.errorReport ∈ (VoiceInput.stop_recording cfgDeleteKw
        { startOk := false, stopOk := false, textResult := none
        , shutdownOk := false } false
        { sOneEntry with recording := true }).snd) :=
  ⟨(C5_failures_reported_and_idle cfgDeleteKw
      { startOk := false, stopOk := false, textResult := none
      , shutdownOk := false } sOneEntry { inner := true } rfl).1 rfl,
   (C5_failures_reported_and_idle cfgDeleteKw
      { startOk := false, stopOk := false, textResult := none
      , shutdownOk := false } { sOneEntry with recording := true }
      { inner := true } rfl).2 rfl |>.1,
   ((C5_failures_reported_and_idle cfgDeleteKw
      { startOk := false, stopOk := false, textResult := none
      , shutdownOk := false } { sOneEntry with recording := true }
      { inner := true } rfl).2 rfl |>.2) (Or.inl rfl)⟩

/-- C6: pressing the configured escape key while recording cancels the
recording: the state changes only by the recording flag going false (the
undo stack in particular is unchanged), the recognizer stop is invoked,
its text fetch is never invoked, the callback is never invoked, no text
is typed, and exactly the indicator length is backspaced. -/
theorem C6_escape_cancels (cfg : CodeSpeakConfig) (env : RecEnv)
    (key : Option PKey) (s : VoiceInput) (r : RSTTRecorder)
    (hr : s.recorder = some r) (hact : s.active = true)
    (hrec : s.recording = true) (hkf : keyFalsy key = false)
    (hesc : key_to_str key = cfg.escape_key) :
    (VoiceInput.on_key_press cfg env key s).fst =
      { s with recording := false } ∧
    Event.recStop ∈ (VoiceInput.on_key_press cfg env key s).snd ∧
    Event.recText ∉ (VoiceInput.on_key_press cfg env key s).snd ∧
    (∀ t, Event.onText t ∉ (VoiceInput.on_key_press cfg env key s).snd) ∧
    (∀ t, Event.typeText t ∉ (VoiceInput.on_key_press cfg env key s).snd) ∧
    countBackspaces (VoiceInput.on_key_press cfg env key s).snd =
      cfg.recording_indicator.length := by
  have hkey : VoiceInput.on_key_press cfg env key s =
      VoiceInput.stop_recording cfg env true s := by
    unfold VoiceInput.on_key_press
    rw [hact, hkf, hrec, hesc]
    simp
  rw [hkey]
  unfold VoiceInput.stop_recording
  rw [hr]
  simp only [hrec]
  have hcnt : ∀ extra : List Event, countBackspaces extra = 0 →
      countBackspaces (handle_delete_indicator cfg ++ extra) =
        cfg.recording_indicator.length := by
    intro extra hx
    rw [countBackspaces_append, hx, Nat.add_zero, handle_delete_indicator,
      countBackspaces_handle_delete]
  rcases hstop : RSTTRecorder.stop env r with u | u
  · refine ⟨by simp, by simp, ?_, ?_, ?_, ?_⟩
    · simp only
      intro hmem
      rcases List.mem_append.mp hmem with h | h
      · exact recText_not_mem_handle_delete cfg _ h
      · simp at h
    · intro t
      simp only
      intro hmem
      rcases List.mem_append.mp hmem with h | h
      · exact onText_not_mem_handle_delete cfg _ t h
      · simp at h
    · intro t
      simp only
      intro hmem
      rcases List.mem_append.mp hmem with h | h
      · exact typeText_not_mem_handle_delete cfg _ t h
      · simp at h
    · exact hcnt _ rfl
  · refine ⟨by simp, by simp, ?_, ?_, ?_, ?_⟩
    · simp only
      intro hmem
      rcases List.mem_append.mp hmem with h | h
      · exact recText_not_mem_handle_delete cfg _ h
      · simp at h
    · intro t
      simp only
      intro hmem
      rcases List.mem_append.mp hmem with h | h
      · exact onText_not_mem_handle_delete cfg _ t h
      · simp at h
    · intro t
      simp only
      intro hmem
      rcases List.mem_append.mp hmem with h | h
      · exact typeText_not_mem_handle_delete cfg _ t h
      · simp at h
    · exact hcnt _ rfl

/-- C6 witness: concrete escape key press during a recording. -/
theorem C6_witness :
    (VoiceInput.on_key_press cfgDeleteKw
        { startOk := true, stopOk := true, textResult := some "hello world"
        , shutdownOk := true }
        (some (PKey.named "Esc"))
        { sOneEntry with recording := true }).fst =
      { sOneEntry with recording := false } ∧
    Event.recStop ∈ (VoiceInput.on_key_press cfgDeleteKw
        { startOk := true, stopOk := true, textResult := some "hello world"
        , shutdownOk := true }
        (some (PKey.named "Esc"))
        { sOneEntry with recording := true }).snd ∧
    Event.recText ∉ (VoiceInput.on_key_press cfgDeleteKw
        { startOk := true, stopOk := true, textResult := some "hello world"
        , shutdownOk := true }
        (some (PKey.named "Esc"))
        { sOneEntry with recording := true }).snd := by
  have h := C6_escape_cancels cfgDeleteKw
    { startOk := true, stopOk := true, textResult := some "hello world"
    , shutdownOk := true }
    (some (PKey.named "Esc")) { sOneEntry with recording := true }
    { inner := true } rfl rfl rfl rfl (by decide)
  exact ⟨h.1, h.2.1, h.2.2.1⟩

/-- C4: retracting an utterance U emits exactly length U + 1 retraction
keystrokes, and the batch strategy (fast_delete true) and the sequential
strategy (fast_delete false) emit the same count for every request. -/
theorem C4_retraction_counts (cfg : CodeSpeakConfig) (s : VoiceInput)
    (pre : List String) (u : String) (h : s.last_input = pre ++ [u]) :
    countBackspaces (handle_delete_last cfg s).snd = u.length + 1 ∧
    ∀ n, countBackspaces (handle_delete { cfg with fast_delete := true } n) =
      countBackspaces (handle_delete { cfg with fast_delete := false } n) := by
  constructor
  · unfold handle_delete_last
    rw [h, List.getLast?_concat]
    simp [countBackspaces_handle_delete]
  · intro n
    rw [countBackspaces_handle_delete, countBackspaces_handle_delete]

/-- C4 witness at a concrete two-character utterance. -/
theorem C4_witness :
    countBackspaces (handle_delete_last cfgDeleteKw sOneEntry).snd =
      "ab".length + 1 ∧
    countBackspaces
        (handle_delete { cfgDeleteKw with fast_delete := true } ("ab".length + 1)) =
      countBackspaces
        (handle_delete { cfgDeleteKw with fast_delete := false } ("ab".length + 1)) :=
  ⟨(C4_retraction_counts cfgDeleteKw sOneEntry [] "ab" rfl).1,
   (C4_retraction_counts cfgDeleteKw sOneEntry [] "ab" rfl).2 ("ab".length + 1)⟩

/-- C8: retracting with an empty undo stack is a complete no-op: the state
is unchanged, the trace is empty (zero keystrokes), and since the function
is total no error is raised. -/
theorem C8_retract_last_empty (cfg : CodeSpeakConfig) (s : VoiceInput)
    (h : s.last_input = []) :
    handle_delete_last cfg s = (s, []) ∧
    countBackspaces (handle_delete_last cfg s).snd = 0 := by
  unfold handle_delete_last
  rw [h]
  simp [countBackspaces]

/-- C8 witness at a concrete empty-stack state. -/
theorem C8_witness :
    handle_delete_last cfgDeleteKw sEmptyIdle = (sEmptyIdle, []) ∧
    countBackspaces (handle_delete_last cfgDeleteKw sEmptyIdle).snd = 0 :=
  C8_retract_last_empty cfgDeleteKw sEmptyIdle rfl

/-- Retracting on an empty undo stack leaves the state and trace empty
(helper shared by the stop analysis). -/
theorem handle_delete_last_of_empty (cfg : CodeSpeakConfig) (s : VoiceInput)
    (h : s.last_input = []) : handle_delete_last cfg s = (s, []) := by
  unfold handle_delete_last
  rw [h]
  rfl

/-- The undo stack after a retraction is the previous stack without its
final element. -/
theorem handle_delete_last_fst_last_input (cfg : CodeSpeakConfig)
    (t : VoiceInput) :
    (handle_delete_last cfg t).fst.last_input = t.last_input.dropLast := by
  rcases List.eq_nil_or_concat t.last_input with h | ⟨l2, a, h⟩
  · unfold handle_delete_last
    rw [h]
    simp [h]
  · rw [List.concat_eq_append] at h
    unfold handle_delete_last
    rw [h, List.getLast?_concat]

/-- stop_recording on a state with no recorder handle is an identity with
an empty trace. -/
theorem stop_recording_no_recorder (cfg : CodeSpeakConfig) (env : RecEnv)
    (e : Bool) (t : VoiceInput) (h : t.recorder = none) :
    VoiceInput.stop_recording cfg env e t = (t, []) := by
  unfold VoiceInput.stop_recording
  rw [h]

/-- Characterization of the undo stack produced by a toggle-stop entered
with an empty stack: it stays empty unless the environment delivers a
non-empty transcript that is not a delete command, in which case the stack
is exactly that one transcript. -/
theorem stop_recording_empty_stack (cfg : CodeSpeakConfig) (env : RecEnv)
    (s : VoiceInput) (r : RSTTRecorder) (hr : s.recorder = some r)
    (hrec : s.recording = true) (hempty : s.last_input = []) :
    (VoiceInput.stop_recording cfg env false s).fst.last_input = [] ∨
    ∃ raw, RSTTRecorder.stop env r = Except.ok () ∧
      RSTTRecorder.text env r = Except.ok raw ∧ raw ≠ "" ∧
      is_delete_command cfg (process_text cfg raw) = false ∧
      (VoiceInput.stop_recording cfg env false s).fst.last_input = [raw] := by
  unfold VoiceInput.stop_recording
  rw [hr]
  simp only [hrec]
  rcases hstop : RSTTRecorder.stop env r with u | u
  · left
    simp [hempty]
  · rcases htext : RSTTRecorder.text env r with v | raw
    · left
      simp [hempty]
    · by_cases hraw : raw = ""
      · left
        simp [hraw, hempty]
      · by_cases hdel : is_delete_command cfg (process_text cfg raw)
        · left
          simp [hraw, hdel, handle_delete_last_fst_last_input, hempty]
        · right
          refine ⟨raw, rfl, rfl, hraw, by simp [hdel], ?_⟩
          simp [hraw, hdel, hempty]

/-- After shutdown the inner recognizer handle is always gone. -/
theorem shutdown_fst_inner (env : RecEnv) (r : RSTTRecorder) :
    (RSTTRecorder.shutdown env r).fst.inner = false := by
  unfold RSTTRecorder.shutdown
  rcases h : r.inner
  · simp [h]
  · rcases henv : env.shutdownOk <;> simp [henv]

/-- Shutting down a recorder whose inner handle is already gone does
nothing and emits nothing. -/
theorem shutdown_noop (env : RecEnv) (r : RSTTRecorder) (h : r.inner = false) :
    RSTTRecorder.shutdown env r = (r, []) := by
  unfold RSTTRecorder.shutdown
  rw [h]
  simp

/-- C1 as amended: stop clears the undo stack first and then, when a
recording is active, performs a NORMAL toggle-stop with classification
and injection (the source calls _stop_recording without is_esc); so after
stop the undo stack is empty unless the active recording delivered a
non-empty non-delete-command transcript, in which case the stack holds
exactly that transcript. -/
theorem C1_stop_clears_then_classifies (cfg : CodeSpeakConfig) (env : RecEnv)
    (s : VoiceInput) :
    (VoiceInput.stop cfg env s).fst.last_input = [] ∨
    (s.recording = true ∧ ∃ r, s.recorder = some r ∧
      ∃ raw, RSTTRecorder.stop env r = Except.ok () ∧
        RSTTRecorder.text env r = Except.ok raw ∧ raw ≠ "" ∧
        is_delete_command cfg (process_text cfg raw) = false ∧
        (VoiceInput.stop cfg env s).fst.last_input = [raw]) := by
  unfold VoiceInput.stop
  dsimp only
  rcases hrec : s.recording
  · left
    rw [if_neg (by simp [hrec])]
    split
    · rfl
    · rfl
  · rw [if_pos rfl]
    have hfr := (stop_recording_frame cfg env false
      { active := false, recording := true, listener := false
      , recorder := s.recorder, onTextSet := s.onTextSet
      , last_input := [] }).1
    split
    · rename_i heq
      left
      have hrd : s.recorder = none := hfr.symm.trans heq
      rw [stop_recording_no_recorder cfg env false
        { active := false, recording := true, listener := false
        , recorder := s.recorder, onTextSet := s.onTextSet
        , last_input := [] } hrd]
    · rename_i r2 heq
      have hrd : s.recorder = some r2 := hfr.symm.trans heq
      have hkey := stop_recording_empty_stack cfg env
        { active := false, recording := true, listener := false
        , recorder := s.recorder, onTextSet := s.onTextSet
        , last_input := [] } r2 hrd rfl rfl
      rcases hkey with hkey | ⟨raw, hstop, htext, hraw, hdel, hkey⟩
      · left
        dsimp only
        exact hkey
      · right
        refine ⟨rfl, r2, hrd, raw, hstop, htext, hraw, hdel, ?_⟩
        dsimp only
        exact hkey

/-- C1 counterexample: stopping during an active recording whose
transcript is hello world leaves the undo stack non-empty and invokes the
callback during stop, refuting the claim that the stack is always empty
after stop and that no utterance is pushed. -/
theorem C1_counterexample :
    (VoiceInput.stop cfgDeleteKw envHello sRecActive).fst.last_input ≠ [] ∧
    Event.onText "hello world" ∈
      (VoiceInput.stop cfgDeleteKw envHello sRecActive).snd := by
  decide

/-- C2 as amended: the indicator removal at recording-stop re-reads the
CURRENT configuration (handle_delete_indicator cfg2 is literally the
removal step of _stop_recording under the stop-time configuration), so the
characters typed at start equal the characters backspaced at stop exactly
when the configured indicator length is unchanged between the two events;
no start-time capture exists in the code. -/
theorem C2_indicator_reads_current_config (cfg1 cfg2 : CodeSpeakConfig)
    (env : RecEnv) (s : VoiceInput) (r : RSTTRecorder)
    (hr : s.recorder = some r)
    (hstart : RSTTRecorder.start env r = Except.ok ())
    (hlen : cfg1.recording_indicator.length = cfg2.recording_indicator.length) :
    typedCount (VoiceInput.start_recording cfg1 env s).snd =
      countBackspaces (handle_delete_indicator cfg2) := by
  unfold VoiceInput.start_recording
  rw [hr]
  simp [hstart, typedCount, Event.typedCharCount, handle_delete_indicator,
    countBackspaces_handle_delete, hlen]

/-- C2 witness: same indicator length, different indicator value, at a
concrete session. -/
theorem C2_witness :
    typedCount (VoiceInput.start_recording cfgDeleteKw envEmptyText
        sActiveIdle).snd =
      countBackspaces (handle_delete_indicator cfgColon) :=
  C2_indicator_reads_current_config cfgDeleteKw cfgColon envEmptyText
    sActiveIdle { inner := true } rfl rfl (by decide)

/-- C2 counterexample: growing the configured indicator from one to two
characters between start and stop makes the stop backspace two characters
although only one was typed, refuting the claimed unconditional
symmetry and the claimed start-time capture. -/
theorem C2_counterexample :
    typedCount
        (VoiceInput.start_recording cfgDeleteKw envEmptyText sActiveIdle).snd ≠
      countBackspaces
        (VoiceInput.stop_recording cfgIndicator2 envEmptyText false
          (VoiceInput.start_recording cfgDeleteKw envEmptyText
            sActiveIdle).fst).snd := by
  decide

/-- State facts holding after any stop: the session is inactive, the
listener is unregistered, any remaining recorder handle has lost its
inner recognizer, and a still-true recording flag is possible only in the
degenerate recorder-less state. -/
theorem stop_state_facts (cfg : CodeSpeakConfig) (env : RecEnv)
    (s : VoiceInput) :
    (VoiceInput.stop cfg env s).fst.active = false ∧
    (VoiceInput.stop cfg env s).fst.listener = false ∧
    (∀ r2, (VoiceInput.stop cfg env s).fst.recorder = some r2 →
      r2.inner = false) ∧
    ((VoiceInput.stop cfg env s).fst.recording = true →
      (VoiceInput.stop cfg env s).fst.recorder = none) := by
  unfold VoiceInput.stop
  dsimp only
  rcases hrec : s.recording
  · rw [if_neg (by simp)]
    split
    · rename_i heq
      refine ⟨rfl, rfl, ?_, ?_⟩
      · intro r2 h2
        rw [heq] at h2
        exact Option.noConfusion h2
      · intro hcontra
        have hx : false = true := hcontra
        exact Bool.noConfusion hx
    · rename_i r2 heq
      refine ⟨rfl, rfl, ?_, ?_⟩
      · intro r3 h3
        dsimp only at h3
        injection h3 with h3
        rw [← h3]
        exact shutdown_fst_inner env r2
      · intro hcontra
        have hx : false = true := hcontra
        exact Bool.noConfusion hx
  · rw [if_pos rfl]
    have hfr := stop_recording_frame cfg env false
      { active := false, recording := true, listener := false
      , recorder := s.recorder, onTextSet := s.onTextSet, last_input := [] }
    split
    · rename_i heq
      refine ⟨hfr.2.1, hfr.2.2.1, ?_, ?_⟩
      · intro r2 h2
        rw [heq] at h2
        exact Option.noConfusion h2
      · intro _
        exact heq
    · rename_i r2 heq
      have hrd : s.recorder = some r2 := hfr.1.symm.trans heq
      refine ⟨?_, ?_, ?_, ?_⟩
      · dsimp only
        exact hfr.2.1
      · dsimp only
        exact hfr.2.2.1
      · intro r3 h3
        dsimp only at h3
        injection h3 with h3
        rw [← h3]
        exact shutdown_fst_inner env r2
      · intro hcontra
        dsimp only at hcontra
        have hf := stop_recording_recording_false cfg env false
          { active := false, recording := true, listener := false
          , recorder := s.recorder, onTextSet := s.onTextSet
          , last_input := [] } r2 hrd rfl
        rw [hf] at hcontra
        exact Bool.noConfusion hcontra

/-- C9 as amended: a second consecutive stop raises no error (the model
is total: the repeated recognizer shutdown is skipped since the inner
handle is gone, and the source swallows shutdown errors anyway), emits no
keystroke, recognizer call or callback (empty trace), and changes nothing
except that it unconditionally re-clears the undo stack; the stack can be
non-empty after the first stop only through the final-transcript push of
the forced stop, so when that stack is empty the second stop is a complete
no-op. -/
theorem C9_second_stop_clears_only (cfg : CodeSpeakConfig)
    (env env2 : RecEnv) (s : VoiceInput) :
    VoiceInput.stop cfg env2 (VoiceInput.stop cfg env s).fst =
      ({ (VoiceInput.stop cfg env s).fst with last_input := [] }, []) := by
  obtain ⟨hact, hlis, hinner, hrecnone⟩ := stop_state_facts cfg env s
  generalize hgen : (VoiceInput.stop cfg env s).fst = s1
    at hact hlis hinner hrecnone ⊢
  unfold VoiceInput.stop
  dsimp only
  rcases hrec1 : s1.recording
  · rw [if_neg (by simp)]
    split
    · rename_i heq
      simp [hact, hlis]
    · rename_i r2 heq
      have hrd : s1.recorder = some r2 := heq
      have hin : r2.inner = false := hinner r2 hrd
      rw [shutdown_noop env2 r2 hin]
      dsimp only
      simp [hact, hlis, hrd]
  · have hnone : s1.recorder = none := hrecnone hrec1
    rw [if_pos rfl, stop_recording_no_recorder cfg env2 false
      { active := false, recording := true, listener := false
      , recorder := s1.recorder, onTextSet := s1.onTextSet
      , last_input := [] } hnone]
    split
    · rename_i heq
      simp [hact, hlis]
    · rename_i r2 heq
      have hrd : s1.recorder = some r2 := heq
      rw [hnone] at hrd
      exact Option.noConfusion hrd

/-- C9 counterexample: after stopping a session mid-recording with a
non-empty transcript, the first stop leaves the undo stack non-empty, so
the second consecutive stop is not a no-op: it clears that stack. -/
theorem C9_counterexample :
    VoiceInput.stop cfgDeleteKw envHello
        (VoiceInput.stop cfgDeleteKw envHello sRecActive).fst ≠
      ((VoiceInput.stop cfgDeleteKw envHello sRecActive).fst, []) := by
  decide

end ISpeak
